import Mathlib

/-!
Shallow embedding of the Turtle Adventure game core
(src/turtle_adventure.py) and verification of the frozen claims about it.

Coordinates are modelled as exact real numbers; Python float arithmetic on
positions is embedded as real arithmetic.  The trigonometric bearing
computations of the source (turtle.towards / setheading / forward, and
math.atan2 / math.cos / math.sin) are embedded through the identities
cos (atan2 b a) = a / sqrt (a^2 + b^2) and
sin (atan2 b a) = b / sqrt (a^2 + b^2) for (a, b) different from (0, 0),
and atan2 0 0 = 0, so a bearing step is a unit vector toward the target.
-/

namespace TurtleAdventure

/-- Euclidean distance between two points, as computed by turtle.distance
and by the Pythagorean combinations of coordinates in the source. -/
noncomputable def pdist (p q : ℝ × ℝ) : ℝ :=
  Real.sqrt ((q.1 - p.1) ^ 2 + (q.2 - p.2) ^ 2)

lemma pdist_nonneg (p q : ℝ × ℝ) : 0 ≤ pdist p q :=
  Real.sqrt_nonneg _

lemma pdist_sq (p q : ℝ × ℝ) :
    pdist p q ^ 2 = (q.1 - p.1) ^ 2 + (q.2 - p.2) ^ 2 :=
  Real.sq_sqrt (by positivity)

lemma pdist_eq_zero_iff (p q : ℝ × ℝ) : pdist p q = 0 ↔ q = p := by
  unfold pdist
  rw [Real.sqrt_eq_zero']
  constructor
  · intro h
    have h1 : (q.1 - p.1) ^ 2 = 0 := by
      nlinarith [sq_nonneg (q.1 - p.1), sq_nonneg (q.2 - p.2)]
    have h2 : (q.2 - p.2) ^ 2 = 0 := by
      nlinarith [sq_nonneg (q.1 - p.1), sq_nonneg (q.2 - p.2)]
    have e1 : q.1 = p.1 := by nlinarith [sq_nonneg (q.1 - p.1)]
    have e2 : q.2 = p.2 := by nlinarith [sq_nonneg (q.2 - p.2)]
    exact Prod.ext_iff.mpr ⟨e1, e2⟩
  · intro h
    subst h
    simp

lemma pdist_pos_of_ne {p q : ℝ × ℝ} (h : q ≠ p) : 0 < pdist p q := by
  rcases lt_or_eq_of_le (pdist_nonneg p q) with hlt | heq
  · exact hlt
  · exact absurd ((pdist_eq_zero_iff p q).mp heq.symm) h

/-- The pair (cos A, sin A) for the bearing angle A = atan2 (t.2 - p.2)
(t.1 - p.1): the unit vector from p toward t when the points differ, and
(1, 0) (angle 0, since atan2 0 0 = 0) when they coincide.  This is the
heading produced by turtle.towards in Player.update (line 182) and by
math.atan2 in ChasingEnemy.update (line 372). -/
noncomputable def bearingUnit (p t : ℝ × ℝ) : ℝ × ℝ :=
  if t = p then (1, 0)
  else ((t.1 - p.1) / pdist p t, (t.2 - p.2) / pdist p t)

/-- Advance from p by s along the bearing toward t: turtle.forward s after
setheading (towards t) in Player.update (lines 182 to 183), and the
cos/sin displacement of ChasingEnemy.update (lines 373 to 374). -/
noncomputable def moveToward (p t : ℝ × ℝ) (s : ℝ) : ℝ × ℝ :=
  (p.1 + s * (bearingUnit p t).1, p.2 + s * (bearingUnit p t).2)

lemma pdist_moveToward (p t : ℝ × ℝ) (s : ℝ) (h : t ≠ p) :
    pdist (moveToward p t s) t = |pdist p t - s| := by
  have hd : 0 < pdist p t := pdist_pos_of_ne h
  have hd2 : (t.1 - p.1) ^ 2 + (t.2 - p.2) ^ 2 = pdist p t ^ 2 :=
    (pdist_sq p t).symm
  have hkey :
      (t.1 - (moveToward p t s).1) ^ 2 + (t.2 - (moveToward p t s).2) ^ 2
        = (pdist p t - s) ^ 2 := by
    unfold moveToward bearingUnit
    rw [if_neg h]
    have hne : pdist p t ≠ 0 := ne_of_gt hd
    field_simp
    linear_combination (pdist p t - s) ^ 2 * hd2
  unfold pdist
  rw [hkey]
  exact Real.sqrt_sq_eq_abs _

lemma pdist_moveToward_self (p t : ℝ × ℝ) (s : ℝ) :
    pdist p (moveToward p t s) = |s| := by
  by_cases h : t = p
  · unfold moveToward bearingUnit
    rw [if_pos h]
    unfold pdist
    simp
    rw [Real.sqrt_sq_eq_abs]
  · have hd : 0 < pdist p t := pdist_pos_of_ne h
    have hd2 : (t.1 - p.1) ^ 2 + (t.2 - p.2) ^ 2 = pdist p t ^ 2 :=
      (pdist_sq p t).symm
    have hkey :
        ((moveToward p t s).1 - p.1) ^ 2 + ((moveToward p t s).2 - p.2) ^ 2
          = s ^ 2 := by
      unfold moveToward bearingUnit
      rw [if_neg h]
      have hne : pdist p t ≠ 0 := ne_of_gt hd
      field_simp
      linear_combination s ^ 2 * hd2
    unfold pdist
    rw [hkey]
    exact Real.sqrt_sq_eq_abs _

/-! Home, waypoint and player (Home.contains lines 130 to 136,
Player.update lines 175 to 185, Waypoint lines 28 to 84). -/

/-- The home of the player (class Home): center position and square size. -/
structure HomeS where
  x : ℝ
  y : ℝ
  size : ℝ

/-- Home.contains (lines 130 to 136): the closed square
[x - size/2, x + size/2] times [y - size/2, y + size/2]. -/
def homeContains (h : HomeS) (px py : ℝ) : Prop :=
  (h.x - h.size / 2 ≤ px ∧ px ≤ h.x + h.size / 2) ∧
  (h.y - h.size / 2 ≤ py ∧ py ≤ h.y + h.size / 2)

/-- The click waypoint (class Waypoint): position and active flag. -/
structure WaypointS where
  x : ℝ
  y : ℝ
  active : Bool

/-- The state touched by Player.update: the player position (turtle
coordinates), the player speed, the home, the waypoint, and whether a win
has been signalled (game_over_win reached). -/
structure PlayerSession where
  player : ℝ × ℝ
  speed : ℝ
  home : HomeS
  wp : WaypointS
  won : Prop

/-- Player.update (lines 175 to 185): first, if home contains the current
player position, call game_over_win (modelled as the won flag; note the
source has no early return there).  Then, if the waypoint is active, set
the heading towards it, move forward by speed, and deactivate the waypoint
when the remaining distance to it is below speed. -/
noncomputable def playerUpdate (st : PlayerSession) : PlayerSession :=
  if st.wp.active then
    if pdist (moveToward st.player (st.wp.x, st.wp.y) st.speed)
        (st.wp.x, st.wp.y) < st.speed then
      { st with player := moveToward st.player (st.wp.x, st.wp.y) st.speed,
                wp := { st.wp with active := false },
                won := st.won ∨ homeContains st.home st.player.1 st.player.2 }
    else
      { st with player := moveToward st.player (st.wp.x, st.wp.y) st.speed,
                won := st.won ∨ homeContains st.home st.player.1 st.player.2 }
  else
    { st with won := st.won ∨ homeContains st.home st.player.1 st.player.2 }

lemma playerUpdate_speed (st : PlayerSession) :
    (playerUpdate st).speed = st.speed := by
  unfold playerUpdate
  split
  · split <;> rfl
  · rfl

lemma playerUpdate_wpx (st : PlayerSession) :
    (playerUpdate st).wp.x = st.wp.x := by
  unfold playerUpdate
  split
  · split <;> rfl
  · rfl

lemma playerUpdate_wpy (st : PlayerSession) :
    (playerUpdate st).wp.y = st.wp.y := by
  unfold playerUpdate
  split
  · split <;> rfl
  · rfl

lemma playerUpdate_inactive (st : PlayerSession) (h : st.wp.active = false) :
    (playerUpdate st).player = st.player ∧ (playerUpdate st).wp = st.wp := by
  unfold playerUpdate
  rw [if_neg (by simp [h])]
  exact ⟨rfl, rfl⟩

lemma playerUpdate_active (st : PlayerSession) (h : st.wp.active = true) :
    (playerUpdate st).player = moveToward st.player (st.wp.x, st.wp.y) st.speed ∧
    ((playerUpdate st).wp.active = false ↔
      pdist (playerUpdate st).player (st.wp.x, st.wp.y) < st.speed) := by
  unfold playerUpdate
  rw [if_pos h]
  split
  · rename_i h2
    exact ⟨rfl, by simpa using h2⟩
  · rename_i h2
    refine ⟨rfl, ?_⟩
    constructor
    · intro hfalse
      exact absurd (h ▸ hfalse) (by simp)
    · intro hlt
      exact absurd hlt h2

lemma iterate_frozen (st : PlayerSession) (h : st.wp.active = false) (n : ℕ) :
    (playerUpdate^[n] st).player = st.player ∧ (playerUpdate^[n] st).wp = st.wp := by
  induction n with
  | zero => exact ⟨rfl, rfl⟩
  | succ n ih =>
    rw [Function.iterate_succ_apply']
    have hact : (playerUpdate^[n] st).wp.active = false := by
      rw [ih.2]; exact h
    obtain ⟨hp, hw⟩ := playerUpdate_inactive _ hact
    exact ⟨hp.trans ih.1, hw.trans ih.2⟩

lemma iterate_speed (st : PlayerSession) (n : ℕ) :
    (playerUpdate^[n] st).speed = st.speed := by
  induction n with
  | zero => rfl
  | succ n ih =>
    rw [Function.iterate_succ_apply', playerUpdate_speed]
    exact ih

lemma iterate_wpx (st : PlayerSession) (n : ℕ) :
    (playerUpdate^[n] st).wp.x = st.wp.x := by
  induction n with
  | zero => rfl
  | succ n ih =>
    rw [Function.iterate_succ_apply', playerUpdate_wpx]
    exact ih

lemma iterate_wpy (st : PlayerSession) (n : ℕ) :
    (playerUpdate^[n] st).wp.y = st.wp.y := by
  induction n with
  | zero => rfl
  | succ n ih =>
    rw [Function.iterate_succ_apply', playerUpdate_wpy]
    exact ih

lemma wp_pos_ne_of_pdist_pos {st : PlayerSession}
    (h : 0 < pdist st.player (st.wp.x, st.wp.y)) :
    st.player ≠ (st.wp.x, st.wp.y) := by
  intro heq
  rw [heq] at h
  have : pdist (st.wp.x, st.wp.y) (st.wp.x, st.wp.y) = 0 := by
    rw [pdist_eq_zero_iff]
  rw [this] at h
  exact lt_irrefl 0 h

lemma converge (n : ℕ) :
    ∀ st : PlayerSession, 0 < st.speed → st.wp.active = true →
    st.player ≠ (st.wp.x, st.wp.y) →
    ⌈pdist st.player (st.wp.x, st.wp.y) / st.speed⌉₊ = n →
    (playerUpdate^[n] st).wp.active = false ∧
    pdist (playerUpdate^[n] st).player (st.wp.x, st.wp.y) < st.speed := by
  induction n with
  | zero =>
    intro st hs ha hne hceil
    exfalso
    have hd : 0 < pdist st.player (st.wp.x, st.wp.y) :=
      pdist_pos_of_ne (fun h => hne h.symm)
    have hpos : 0 < pdist st.player (st.wp.x, st.wp.y) / st.speed :=
      div_pos hd hs
    have := Nat.ceil_pos.mpr hpos
    omega
  | succ n ih =>
    intro st hs ha hne hceil
    have hd : 0 < pdist st.player (st.wp.x, st.wp.y) :=
      pdist_pos_of_ne (fun h => hne h.symm)
    obtain ⟨hp', hiff⟩ := playerUpdate_active st ha
    have hwne : (st.wp.x, st.wp.y) ≠ st.player := fun h => hne h.symm
    have hmove : pdist (playerUpdate st).player (st.wp.x, st.wp.y)
        = |pdist st.player (st.wp.x, st.wp.y) - st.speed| := by
      rw [hp']
      exact pdist_moveToward st.player (st.wp.x, st.wp.y) st.speed hwne
    rw [Function.iterate_succ_apply]
    by_cases hlt : |pdist st.player (st.wp.x, st.wp.y) - st.speed| < st.speed
    · have hact' : (playerUpdate st).wp.active = false := by
        apply hiff.mpr
        rw [hmove]
        exact hlt
      obtain ⟨hpfr, hwfr⟩ := iterate_frozen (playerUpdate st) hact' n
      refine ⟨?_, ?_⟩
      · rw [hwfr]
        exact hact'
      · rw [hpfr, hmove]
        exact hlt
    · have hge : st.speed ≤ |pdist st.player (st.wp.x, st.wp.y) - st.speed| :=
        not_lt.mp hlt
    -- since the distance is positive and the absolute gap is at least speed,
    -- the player has not yet overshot: the gap is distance minus speed
      have habs : |pdist st.player (st.wp.x, st.wp.y) - st.speed|
          = pdist st.player (st.wp.x, st.wp.y) - st.speed := by
        rcases abs_cases (pdist st.player (st.wp.x, st.wp.y) - st.speed) with
          ⟨he, _⟩ | ⟨he, hneg⟩
        · exact he
        · exfalso
          rw [he] at hge
          linarith
      have hd' : st.speed ≤ pdist st.player (st.wp.x, st.wp.y) - st.speed := by
        rw [habs] at hge
        exact hge
      have hact' : (playerUpdate st).wp.active = true := by
        rcases Bool.eq_false_or_eq_true ((playerUpdate st).wp.active) with ht | hf
        · exact ht
        · exfalso
          have := hiff.mp hf
          rw [hmove] at this
          exact hlt this
      have hdist' : pdist (playerUpdate st).player
          ((playerUpdate st).wp.x, (playerUpdate st).wp.y)
          = pdist st.player (st.wp.x, st.wp.y) - st.speed := by
        rw [playerUpdate_wpx, playerUpdate_wpy, hmove, habs]
      have hne' : (playerUpdate st).player ≠
          ((playerUpdate st).wp.x, (playerUpdate st).wp.y) := by
        apply wp_pos_ne_of_pdist_pos
        rw [hdist']
        linarith
      have hn1 : 1 ≤ n := by
        have h2s : 2 * st.speed ≤ pdist st.player (st.wp.x, st.wp.y) := by
          linarith
        have hx2 : (2 : ℝ) ≤ pdist st.player (st.wp.x, st.wp.y) / st.speed := by
          rw [le_div_iff₀ hs]
          linarith
        have : 2 ≤ ⌈pdist st.player (st.wp.x, st.wp.y) / st.speed⌉₊ := by
          have := Nat.ceil_le_ceil (α := ℝ) hx2
          simpa using this
        omega
      have hceil' : ⌈pdist (playerUpdate st).player
          ((playerUpdate st).wp.x, (playerUpdate st).wp.y)
          / (playerUpdate st).speed⌉₊ = n := by
        rw [hdist', playerUpdate_speed]
        have hbounds := (Nat.ceil_eq_iff (by omega : n + 1 ≠ 0)).mp hceil
        obtain ⟨hlow, hhigh⟩ := hbounds
        have hlow' : (n : ℝ) < pdist st.player (st.wp.x, st.wp.y) / st.speed := by
          have : ((n + 1 - 1 : ℕ) : ℝ) = (n : ℝ) := by
            push_cast
            ring
          rw [this] at hlow
          exact hlow
        apply (Nat.ceil_eq_iff (by omega : n ≠ 0)).mpr
        constructor
        · have : ((n - 1 : ℕ) : ℝ) = (n : ℝ) - 1 := by
            have : 1 ≤ n := hn1
            push_cast [this]
            ring
          rw [this, sub_div]
          have hss : st.speed / st.speed = 1 := div_self (ne_of_gt hs)
          rw [hss]
          linarith
        · rw [sub_div]
          have hss : st.speed / st.speed = 1 := div_self (ne_of_gt hs)
          rw [hss]
          push_cast at hhigh
          linarith
      have := ih (playerUpdate st) (by rw [playerUpdate_speed]; exact hs)
        hact' hne' hceil'
      rw [playerUpdate_wpx, playerUpdate_wpy, playerUpdate_speed] at this
      exact this

lemma playerUpdate_won (st : PlayerSession) :
    (playerUpdate st).won =
      (st.won ∨ homeContains st.home st.player.1 st.player.2) := by
  unfold playerUpdate
  split
  · split <;> rfl
  · rfl

/-- Session of the end-to-end scenario with the player standing on the home
center while the waypoint is active 100 units to the left. -/
noncomputable def c1State : PlayerSession :=
  { player := (700, 250), speed := 5, home := ⟨700, 250, 20⟩,
    wp := ⟨600, 250, true⟩, won := False }

lemma c1_home_contains :
    homeContains c1State.home c1State.player.1 c1State.player.2 := by
  simp only [c1State, homeContains]
  norm_num

/-- C1, counterexample: with the player already inside Home and the waypoint
active, Player.update does signal the win, yet the player still moves during
that same update call (there is no early return after game_over_win), so the
claim that no movement occurs in that call is false on the code. -/
theorem c1_counterexample :
    homeContains c1State.home c1State.player.1 c1State.player.2 ∧
    c1State.wp.active = true ∧
    (playerUpdate c1State).won ∧
    (playerUpdate c1State).player ≠ c1State.player := by
  have hne : ((600 : ℝ), (250 : ℝ)) ≠ ((700 : ℝ), (250 : ℝ)) := by
    intro h
    have h1 := congrArg Prod.fst h
    norm_num at h1
  have hd : pdist ((700 : ℝ), (250 : ℝ)) ((600 : ℝ), (250 : ℝ)) = 100 := by
    show Real.sqrt (((600 : ℝ) - 700) ^ 2 + ((250 : ℝ) - 250) ^ 2) = 100
    rw [show ((600 : ℝ) - 700) ^ 2 + ((250 : ℝ) - 250) ^ 2 = 100 ^ 2 by norm_num]
    exact Real.sqrt_sq (by norm_num)
  have hb : bearingUnit ((700 : ℝ), 250) ((600 : ℝ), 250) = (-1, 0) := by
    unfold bearingUnit
    rw [if_neg hne, hd]
    norm_num
  have hmv : moveToward ((700 : ℝ), 250) ((600 : ℝ), 250) 5 = (695, 250) := by
    unfold moveToward
    rw [hb]
    norm_num
  refine ⟨c1_home_contains, rfl, ?_, ?_⟩
  · rw [playerUpdate_won]
    exact Or.inr c1_home_contains
  · obtain ⟨hp', _⟩ := playerUpdate_active c1State rfl
    rw [hp']
    show moveToward ((700 : ℝ), 250) ((600 : ℝ), 250) 5 ≠ ((700 : ℝ), 250)
    rw [hmv]
    intro h
    have h1 := congrArg Prod.fst h
    norm_num at h1

/-- C1 (amended): if Home contains the player position at the start of
Player.update, the update signals the session win; the player performs no
movement when the waypoint is inactive; but when the waypoint is active the
player still advances by exactly the speed within that same update call
(the terminal transition stops subsequent ticks, not the remainder of the
current call). -/
theorem c1_win_signal_and_movement (st : PlayerSession)
    (hc : homeContains st.home st.player.1 st.player.2) :
    (playerUpdate st).won ∧
    (st.wp.active = false → (playerUpdate st).player = st.player) ∧
    (st.wp.active = true →
      pdist st.player (playerUpdate st).player = |st.speed|) := by
  refine ⟨?_, ?_, ?_⟩
  · rw [playerUpdate_won]
    exact Or.inr hc
  · intro h
    exact (playerUpdate_inactive st h).1
  · intro h
    obtain ⟨hp', _⟩ := playerUpdate_active st h
    rw [hp']
    exact pdist_moveToward_self _ _ _

/-- C1, witness: the amended theorem applied to the concrete session where
the player stands on the home center. -/
theorem c1_witness :
    homeContains c1State.home c1State.player.1 c1State.player.2 ∧
    ((playerUpdate c1State).won ∧
     (c1State.wp.active = false → (playerUpdate c1State).player = c1State.player) ∧
     (c1State.wp.active = true →
       pdist c1State.player (playerUpdate c1State).player = |c1State.speed|)) :=
  ⟨c1_home_contains, c1_win_signal_and_movement c1State c1_home_contains⟩

/-- Session with the player standing exactly on an active waypoint. -/
noncomputable def c2cState : PlayerSession :=
  { player := (200, 300), speed := 5, home := ⟨700, 250, 20⟩,
    wp := ⟨200, 300, true⟩, won := False }

/-- C2, counterexample: when the initial player position coincides with the
waypoint, the claimed bound fails: the ceiling of distance over speed is 0,
yet after 0 updates the waypoint is still active (the turtle first walks
away by one speed step and only deactivates one update later). -/
theorem c2_counterexample :
    ⌈pdist c2cState.player (c2cState.wp.x, c2cState.wp.y) / c2cState.speed⌉₊ = 0 ∧
    (playerUpdate^[⌈pdist c2cState.player (c2cState.wp.x, c2cState.wp.y)
        / c2cState.speed⌉₊] c2cState).wp.active = true := by
  have h0 : pdist c2cState.player (c2cState.wp.x, c2cState.wp.y) = 0 := by
    apply (pdist_eq_zero_iff _ _).mpr
    rfl
  have hc : ⌈pdist c2cState.player (c2cState.wp.x, c2cState.wp.y)
      / c2cState.speed⌉₊ = 0 := by
    rw [h0]
    simp
  refine ⟨hc, ?_⟩
  rw [hc]
  rfl

/-- C2 (amended: the initial player position must differ from the waypoint):
with the waypoint active and speed positive, after the ceiling of distance
over speed many updates the waypoint is inactive and the player is within
one speed step of it; while active, each update advances the player by
exactly the speed along the bearing to the waypoint, and the waypoint is
deactivated exactly when the post-move distance drops below the speed. -/
theorem c2_waypoint_convergence (st : PlayerSession) (hs : 0 < st.speed)
    (ha : st.wp.active = true) (hne : st.player ≠ (st.wp.x, st.wp.y)) :
    ((playerUpdate^[⌈pdist st.player (st.wp.x, st.wp.y) / st.speed⌉₊]
        st).wp.active = false ∧
     pdist (playerUpdate^[⌈pdist st.player (st.wp.x, st.wp.y) / st.speed⌉₊]
        st).player (st.wp.x, st.wp.y) < st.speed) ∧
    (∀ k, (playerUpdate^[k] st).wp.active = true →
      pdist (playerUpdate^[k] st).player (playerUpdate^[k + 1] st).player
        = st.speed) ∧
    (∀ k, (playerUpdate^[k] st).wp.active = true →
      ((playerUpdate^[k + 1] st).wp.active = false ↔
        pdist (playerUpdate^[k + 1] st).player (st.wp.x, st.wp.y) < st.speed)) := by
  refine ⟨converge _ st hs ha hne rfl, ?_, ?_⟩
  · intro k hk
    rw [Function.iterate_succ_apply']
    obtain ⟨hp', _⟩ := playerUpdate_active (playerUpdate^[k] st) hk
    rw [hp', pdist_moveToward_self, iterate_speed]
    exact abs_of_pos hs
  · intro k hk
    obtain ⟨_, hiff⟩ := playerUpdate_active (playerUpdate^[k] st) hk
    rw [iterate_wpx, iterate_wpy, iterate_speed] at hiff
    rw [Function.iterate_succ_apply']
    exact hiff

/-- Session for the C2 witness: player at the origin, active waypoint three
units to the right, speed five. -/
noncomputable def c2State : PlayerSession :=
  { player := (0, 0), speed := 5, home := ⟨1000, 1000, 20⟩,
    wp := ⟨3, 0, true⟩, won := False }

/-- C2, witness: the amended theorem applied to a concrete session. -/
theorem c2_witness :
    (0 < c2State.speed ∧ c2State.wp.active = true ∧
      c2State.player ≠ (c2State.wp.x, c2State.wp.y)) ∧
    (((playerUpdate^[⌈pdist c2State.player (c2State.wp.x, c2State.wp.y)
        / c2State.speed⌉₊] c2State).wp.active = false ∧
      pdist (playerUpdate^[⌈pdist c2State.player (c2State.wp.x, c2State.wp.y)
        / c2State.speed⌉₊] c2State).player (c2State.wp.x, c2State.wp.y)
          < c2State.speed) ∧
     (∀ k, (playerUpdate^[k] c2State).wp.active = true →
       pdist (playerUpdate^[k] c2State).player
         (playerUpdate^[k + 1] c2State).player = c2State.speed) ∧
     (∀ k, (playerUpdate^[k] c2State).wp.active = true →
       ((playerUpdate^[k + 1] c2State).wp.active = false ↔
         pdist (playerUpdate^[k + 1] c2State).player
           (c2State.wp.x, c2State.wp.y) < c2State.speed))) := by
  have hs : 0 < c2State.speed := by norm_num [c2State]
  have hne : c2State.player ≠ (c2State.wp.x, c2State.wp.y) := by
    intro h
    have h1 := congrArg Prod.fst h
    simp only [c2State] at h1
    norm_num at h1
  exact ⟨⟨hs, rfl, hne⟩, c2_waypoint_convergence c2State hs rfl hne⟩

/-! EnemyGenerator (lines 509 to 575): spawn scheduling over discrete
timer slots. -/

/-- Generator counters plus whether a create_enemy call is currently
scheduled through after (EnemyGenerator state, lines 515 to 522). -/
structure GenState where
  sinCount : ℕ
  fencingCount : ℕ
  pending : Bool
deriving DecidableEq

/-- The enemies spawned by one create_enemy call. -/
structure Batch where
  demo : ℕ
  randomwalk : ℕ
  chasing : ℕ
  fencing : ℕ
  sin : ℕ
deriving DecidableEq

def emptyBatch : Batch := ⟨0, 0, 0, 0, 0⟩

/-- EnemyGenerator.create_enemy (lines 538 to 575): always spawn one
DemoEnemy, one RandomWalkEnemy and one ChasingEnemy; spawn a FencingEnemy
and bump the counter while fencingCount < 7; spawn a SinEnemy, bump the
counter and reschedule the next call (after 1000) while sinCount < 10;
the reschedule happens only inside that final branch. -/
def createEnemy (g : GenState) : GenState × Batch :=
  if g.sinCount < 10 then
    if g.fencingCount < 7 then
      (⟨g.sinCount + 1, g.fencingCount + 1, true⟩, ⟨1, 1, 1, 1, 1⟩)
    else
      (⟨g.sinCount + 1, g.fencingCount, true⟩, ⟨1, 1, 1, 0, 1⟩)
  else
    if g.fencingCount < 7 then
      (⟨g.sinCount, g.fencingCount + 1, false⟩, ⟨1, 1, 1, 1, 0⟩)
    else
      (⟨g.sinCount, g.fencingCount, false⟩, ⟨1, 1, 1, 0, 0⟩)

/-- EnemyGenerator.__init__ (lines 515 to 522): counters start at zero and
the first create_enemy call is scheduled (after 100). -/
def genInit : GenState := ⟨0, 0, true⟩

/-- One scheduled slot: create_enemy runs only when a call is pending;
otherwise nothing is spawned and the state is unchanged. -/
def fireBatch (g : GenState) : GenState × Batch :=
  if g.pending then createEnemy g else (g, emptyBatch)

/-- Generator state after n scheduled slots. -/
def genAfter : ℕ → GenState
  | 0 => genInit
  | n + 1 => (fireBatch (genAfter n)).1

/-- The spawns of scheduled slot n + 1. -/
def batchSpawns (n : ℕ) : Batch := (fireBatch (genAfter n)).2

/-- C3, counterexample: right after the batch in which sinCount reaches 10
(the 10th batch), another create_enemy call is pending, and that 11th call
spawns one Demo, one RandomWalk and one Chasing enemy: spawning does not
stop with the 10th batch. -/
theorem c3_counterexample :
    (genAfter 10).sinCount = 10 ∧ (genAfter 10).pending = true ∧
    batchSpawns 10 = ⟨1, 1, 1, 0, 0⟩ := by
  decide

/-- C3 (amended): after n scheduled slots the counters are
sinCount = min 10 n and fencingCount = min 7 n (hence monotone and capped);
a further call is pending exactly while n is at most 10, so exactly one
batch (the 11th) still fires after sinCount reaches 10 - it spawns one
Demo, one RandomWalk and one Chasing enemy and schedules nothing - and
from slot 12 on nothing is spawned at all. -/
theorem c3_spawn_counters (n : ℕ) :
    (genAfter n).sinCount = min 10 n ∧
    (genAfter n).fencingCount = min 7 n ∧
    ((genAfter n).pending = true ↔ n ≤ 10) ∧
    (11 ≤ n → batchSpawns n = emptyBatch) := by
  induction n with
  | zero => decide
  | succ n ih =>
    obtain ⟨hsin, hfen, hpend, _⟩ := ih
    have hmain : (genAfter (n + 1)).sinCount = min 10 (n + 1) ∧
        (genAfter (n + 1)).fencingCount = min 7 (n + 1) ∧
        ((genAfter (n + 1)).pending = true ↔ n + 1 ≤ 10) := by
      have hstep : genAfter (n + 1) = (fireBatch (genAfter n)).1 := rfl
      rw [hstep]
      by_cases hp : (genAfter n).pending = true
      · have hn10 : n ≤ 10 := hpend.mp hp
        rw [show fireBatch (genAfter n) = createEnemy (genAfter n) by
          unfold fireBatch; rw [if_pos hp]]
        unfold createEnemy
        rcases Nat.lt_or_ge (genAfter n).sinCount 10 with hs | hs
        · rw [if_pos hs]
          rcases Nat.lt_or_ge (genAfter n).fencingCount 7 with hf | hf
          · rw [if_pos hf]
            refine ⟨?_, ?_, ?_⟩ <;> simp_all <;> omega
          · rw [if_neg (by omega)]
            refine ⟨?_, ?_, ?_⟩ <;> simp_all <;> omega
        · rw [if_neg (by omega)]
          rcases Nat.lt_or_ge (genAfter n).fencingCount 7 with hf | hf
          · rw [if_pos hf]
            refine ⟨?_, ?_, ?_⟩ <;> simp_all <;> omega
          · rw [if_neg (by omega)]
            refine ⟨?_, ?_, ?_⟩ <;> simp_all <;> omega
      · have hp' : (genAfter n).pending = false := by
          rcases Bool.eq_false_or_eq_true ((genAfter n).pending) with h | h
          · exact absurd h hp
          · exact h
        have hn10 : ¬ n ≤ 10 := fun h => hp (hpend.mpr h)
        rw [show fireBatch (genAfter n) = (genAfter n, emptyBatch) by
          unfold fireBatch; rw [if_neg (by simp [hp'])]]
        refine ⟨?_, ?_, ?_⟩ <;> simp_all <;> omega
    refine ⟨hmain.1, hmain.2.1, hmain.2.2, ?_⟩
    intro h11
    unfold batchSpawns
    have hp' : (genAfter (n + 1)).pending = false := by
      rcases Bool.eq_false_or_eq_true ((genAfter (n + 1)).pending) with h | h
      · exact absurd (hmain.2.2.mp h) (by omega)
      · exact h
    unfold fireBatch
    rw [if_neg (by simp [hp'])]

/-- C3, witness: the amended theorem applied at slot 12, with the
hypothesis of the final clause discharged. -/
theorem c3_witness :
    (genAfter 12).sinCount = min 10 12 ∧
    (genAfter 12).fencingCount = min 7 12 ∧
    batchSpawns 12 = emptyBatch :=
  ⟨(c3_spawn_counters 12).1, (c3_spawn_counters 12).2.1,
   (c3_spawn_counters 12).2.2.2 (by norm_num)⟩

/-! Terminal transitions (TurtleAdventureGame.game_over_win lines 626 to
636 and game_over_lose lines 638 to 648). -/

/-- Session terminal status per spec section 4.4. -/
inductive SessionStatus
  | running
  | won
  | lost
deriving DecidableEq

/-- Modelled from the spec: class Game of gamelib (the base class whose
stop method and update loop game_over_win and game_over_lose rely on) is
not under src/.  Per spec sections 4.4 and 5, stop halts the periodic
update loop and the session carries a terminal-state flag; the observable
side effects of a transition are recorded here as the number of stop calls
and the list of banner texts drawn on the canvas. -/
structure GameOverS where
  status : SessionStatus
  stopCalls : ℕ
  banners : List String
deriving DecidableEq

/-- TurtleAdventureGame.game_over_lose (lines 638 to 648): unconditionally
call stop and draw the text banner You Lose; there is no guard against an
already-terminal session. -/
def gameOverLose (g : GameOverS) : GameOverS :=
  { status := SessionStatus.lost,
    stopCalls := g.stopCalls + 1,
    banners := g.banners ++ ["You Lose"] }

/-- TurtleAdventureGame.game_over_win (lines 626 to 636): unconditionally
call stop and draw the text banner You Win. -/
def gameOverWin (g : GameOverS) : GameOverS :=
  { status := SessionStatus.won,
    stopCalls := g.stopCalls + 1,
    banners := g.banners ++ ["You Win"] }

/-- C4: signalling loss twice leaves the state Lost, but the second
invocation is not idempotent on side effects: the code calls stop again
and draws a second You Lose banner, contradicting the claim that no second
stop occurs and no second banner is drawn. -/
theorem c4_double_lose_side_effects :
    (gameOverLose (gameOverLose ⟨SessionStatus.running, 0, []⟩)).status
        = SessionStatus.lost ∧
    (gameOverLose (gameOverLose ⟨SessionStatus.running, 0, []⟩)).stopCalls = 2 ∧
    (gameOverLose (gameOverLose ⟨SessionStatus.running, 0, []⟩)).banners
        = ["You Lose", "You Lose"] := by
  refine ⟨rfl, rfl, rfl⟩

/-! RandomWalkEnemy (lines 296 to 350). -/

/-- RandomWalkEnemy state: position, bounding-square side, speed, and the
heading in degrees. -/
structure RWState where
  x : ℝ
  y : ℝ
  size : ℝ
  speed : ℝ
  direction : ℝ

/-- The movement step of RandomWalkEnemy.update (lines 315 to 316):
advance speed units along the heading, with math.radians d = d * pi / 180. -/
noncomputable def rwMove (st : RWState) : RWState :=
  { st with
    x := st.x + st.speed * Real.cos (st.direction * Real.pi / 180),
    y := st.y + st.speed * Real.sin (st.direction * Real.pi / 180) }

/-- The horizontal frame block of RandomWalkEnemy.update (lines 318 to
328): when either vertical edge is touched, flip the heading to
180 - direction, and clamp x to the touched side (the unguarded third
branch mirrors the if/elif structure of the source and is unreachable). -/
noncomputable def rwBounceX (W : ℝ) (st : RWState) : RWState :=
  if st.x + st.size / 2 ≥ W ∨ st.x - st.size / 2 ≤ 0 then
    if st.x + st.size / 2 ≥ W then
      { st with direction := 180 - st.direction, x := W - st.size / 2 }
    else if st.x - st.size / 2 ≤ 0 then
      { st with direction := 180 - st.direction, x := st.size / 2 }
    else
      { st with direction := 180 - st.direction }
  else st

/-- The vertical frame block of RandomWalkEnemy.update (lines 330 to 339):
when either horizontal edge is touched, flip the heading to - direction,
and clamp y to the touched side. -/
noncomputable def rwBounceY (H : ℝ) (st : RWState) : RWState :=
  if st.y + st.size / 2 ≥ H ∨ st.y - st.size / 2 ≤ 0 then
    if st.y + st.size / 2 ≥ H then
      { st with direction := -st.direction, y := H - st.size / 2 }
    else if st.y - st.size / 2 ≤ 0 then
      { st with direction := -st.direction, y := st.size / 2 }
    else
      { st with direction := -st.direction }
  else st

/-- RandomWalkEnemy.update (lines 314 to 342): move, then the horizontal
block, then the vertical block.  The final hits_player check (line 341)
only signals the loss and does not change the kinematic state; it is
modelled by the shared hitsPlayer predicate below. -/
noncomputable def rwUpdate (W H : ℝ) (st : RWState) : RWState :=
  rwBounceY H (rwBounceX W (rwMove st))

lemma rwBounceX_y (W : ℝ) (st : RWState) : (rwBounceX W st).y = st.y := by
  unfold rwBounceX
  split
  · split
    · rfl
    · split <;> rfl
  · rfl

lemma rwBounceX_size (W : ℝ) (st : RWState) : (rwBounceX W st).size = st.size := by
  unfold rwBounceX
  split
  · split
    · rfl
    · split <;> rfl
  · rfl

lemma rwBounceY_x (H : ℝ) (st : RWState) : (rwBounceY H st).x = st.x := by
  unfold rwBounceY
  split
  · split
    · rfl
    · split <;> rfl
  · rfl

lemma rwBounceY_size (H : ℝ) (st : RWState) : (rwBounceY H st).size = st.size := by
  unfold rwBounceY
  split
  · split
    · rfl
    · split <;> rfl
  · rfl

/-- Concrete random-walk enemy one step short of the top-right corner:
heading 90 degrees, about to cross both the right and the top edge in a
single update. -/
noncomputable def c5State : RWState :=
  { x := 797, y := 496, size := 10, speed := 5, direction := 90 }

lemma c5_move : rwMove c5State = { x := 797, y := 501, size := 10, speed := 5, direction := 90 } := by
  unfold rwMove c5State
  have hrad : (90 : ℝ) * Real.pi / 180 = Real.pi / 2 := by ring
  rw [hrad, Real.cos_pi_div_two, Real.sin_pi_div_two]
  norm_num

/-- C5, counterexample: in an 800 by 500 arena, a size-10 enemy at
(797, 496) with heading 90 crosses the right edge (post-move x + size/2 is
at least the width), and x is indeed clamped to width - size/2, but both
edges fire in the same update, so the final direction is -(180 - 90) = -90
rather than the claimed 180 - 90 = 90 (and no 360-degree normalization
reconciles them). -/
theorem c5_counterexample :
    (rwMove c5State).x + c5State.size / 2 ≥ 800 ∧
    (rwUpdate 800 500 c5State).x = 800 - c5State.size / 2 ∧
    (rwUpdate 800 500 c5State).direction = -90 ∧
    (180 : ℝ) - c5State.direction = 90 ∧
    (∀ k : ℤ, (-90 : ℝ) ≠ 90 + 360 * k) := by
  have hupd : rwUpdate 800 500 c5State =
      { x := 795, y := 495, size := 10, speed := 5, direction := -90 } := by
    unfold rwUpdate
    rw [c5_move]
    unfold rwBounceX
    rw [if_pos (by norm_num), if_pos (by norm_num)]
    unfold rwBounceY
    norm_num
  refine ⟨?_, ?_, ?_, ?_, ?_⟩
  · rw [c5_move]
    show (797 : ℝ) + c5State.size / 2 ≥ 800
    norm_num [c5State]
  · rw [hupd]
    norm_num [c5State]
  · rw [hupd]
  · norm_num [c5State]
  · intro k hk
    have h360 : ((360 : ℤ) * k : ℝ) = (360 : ℝ) * (k : ℝ) := by push_cast; ring
    have : ((2 * k : ℤ) : ℝ) = ((-1 : ℤ) : ℝ) := by push_cast; linarith
    have h2k : (2 * k : ℤ) = -1 := Int.cast_injective this
    omega

lemma rwBounceX_right (W : ℝ) (st : RWState) (h : st.x + st.size / 2 ≥ W) :
    (rwBounceX W st).x = W - st.size / 2 ∧
    (rwBounceX W st).direction = 180 - st.direction ∧
    (rwBounceX W st).y = st.y ∧ (rwBounceX W st).size = st.size := by
  unfold rwBounceX
  rw [if_pos (Or.inl h), if_pos h]
  exact ⟨rfl, rfl, rfl, rfl⟩

lemma rwBounceX_left (W : ℝ) (st : RWState) (h1 : ¬(st.x + st.size / 2 ≥ W))
    (h2 : st.x - st.size / 2 ≤ 0) :
    (rwBounceX W st).x = st.size / 2 ∧
    (rwBounceX W st).direction = 180 - st.direction ∧
    (rwBounceX W st).y = st.y ∧ (rwBounceX W st).size = st.size := by
  unfold rwBounceX
  rw [if_pos (Or.inr h2), if_neg h1, if_pos h2]
  exact ⟨rfl, rfl, rfl, rfl⟩

lemma rwBounceX_none (W : ℝ) (st : RWState) (h1 : ¬(st.x + st.size / 2 ≥ W))
    (h2 : ¬(st.x - st.size / 2 ≤ 0)) :
    rwBounceX W st = st := by
  unfold rwBounceX
  rw [if_neg (not_or.mpr ⟨h1, h2⟩)]

lemma rwBounceY_bottom (H : ℝ) (st : RWState) (h : st.y + st.size / 2 ≥ H) :
    (rwBounceY H st).y = H - st.size / 2 ∧
    (rwBounceY H st).direction = -st.direction ∧
    (rwBounceY H st).x = st.x ∧ (rwBounceY H st).size = st.size := by
  unfold rwBounceY
  rw [if_pos (Or.inl h), if_pos h]
  exact ⟨rfl, rfl, rfl, rfl⟩

lemma rwBounceY_top (H : ℝ) (st : RWState) (h1 : ¬(st.y + st.size / 2 ≥ H))
    (h2 : st.y - st.size / 2 ≤ 0) :
    (rwBounceY H st).y = st.size / 2 ∧
    (rwBounceY H st).direction = -st.direction ∧
    (rwBounceY H st).x = st.x ∧ (rwBounceY H st).size = st.size := by
  unfold rwBounceY
  rw [if_pos (Or.inr h2), if_neg h1, if_pos h2]
  exact ⟨rfl, rfl, rfl, rfl⟩

lemma rwBounceY_none (H : ℝ) (st : RWState) (h1 : ¬(st.y + st.size / 2 ≥ H))
    (h2 : ¬(st.y - st.size / 2 ≤ 0)) :
    rwBounceY H st = st := by
  unfold rwBounceY
  rw [if_neg (not_or.mpr ⟨h1, h2⟩)]

/-- C5 (amended: the clamp values are as claimed, and the direction laws
hold provided the other axis does not also reflect in the same update; at
a corner the two reflections compose): if the moved x reaches the right
edge and the moved y stays strictly inside, the update yields
x = W - size/2 and direction 180 - direction_old; if only the left edge is
reached, x = size/2 with the same direction law; if only the bottom or top
edge is reached in y, the update clamps y and negates the direction. -/
theorem c5_reflection (W H : ℝ) (st : RWState) :
    ((rwMove st).x + st.size / 2 ≥ W →
     ¬((rwMove st).y + st.size / 2 ≥ H) → ¬((rwMove st).y - st.size / 2 ≤ 0) →
      (rwUpdate W H st).x = W - st.size / 2 ∧
      (rwUpdate W H st).direction = 180 - st.direction) ∧
    (¬((rwMove st).x + st.size / 2 ≥ W) → (rwMove st).x - st.size / 2 ≤ 0 →
     ¬((rwMove st).y + st.size / 2 ≥ H) → ¬((rwMove st).y - st.size / 2 ≤ 0) →
      (rwUpdate W H st).x = st.size / 2 ∧
      (rwUpdate W H st).direction = 180 - st.direction) ∧
    (¬((rwMove st).x + st.size / 2 ≥ W) → ¬((rwMove st).x - st.size / 2 ≤ 0) →
     (rwMove st).y + st.size / 2 ≥ H →
      (rwUpdate W H st).y = H - st.size / 2 ∧
      (rwUpdate W H st).direction = -st.direction) ∧
    (¬((rwMove st).x + st.size / 2 ≥ W) → ¬((rwMove st).x - st.size / 2 ≤ 0) →
     ¬((rwMove st).y + st.size / 2 ≥ H) → (rwMove st).y - st.size / 2 ≤ 0 →
      (rwUpdate W H st).y = st.size / 2 ∧
      (rwUpdate W H st).direction = -st.direction) := by
  refine ⟨?_, ?_, ?_, ?_⟩
  · intro hxr hyt hyb
    unfold rwUpdate
    obtain ⟨hbx, hbd, hby, hbs⟩ := rwBounceX_right W (rwMove st) hxr
    have hyn := rwBounceY_none H (rwBounceX W (rwMove st))
      (by rw [hby, hbs]; exact hyt) (by rw [hby, hbs]; exact hyb)
    rw [hyn, hbx, hbd]
    exact ⟨rfl, rfl⟩
  · intro hxr hxl hyt hyb
    unfold rwUpdate
    obtain ⟨hbx, hbd, hby, hbs⟩ := rwBounceX_left W (rwMove st) hxr hxl
    have hyn := rwBounceY_none H (rwBounceX W (rwMove st))
      (by rw [hby, hbs]; exact hyt) (by rw [hby, hbs]; exact hyb)
    rw [hyn, hbx, hbd]
    exact ⟨rfl, rfl⟩
  · intro hxr hxl hyB
    unfold rwUpdate
    have hxn := rwBounceX_none W (rwMove st) hxr hxl
    rw [hxn]
    obtain ⟨hby, hbd, _, _⟩ := rwBounceY_bottom H (rwMove st) hyB
    rw [hby, hbd]
    exact ⟨rfl, rfl⟩
  · intro hxr hxl hyB hyT
    unfold rwUpdate
    have hxn := rwBounceX_none W (rwMove st) hxr hxl
    rw [hxn]
    obtain ⟨hby, hbd, _, _⟩ := rwBounceY_top H (rwMove st) hyB hyT
    rw [hby, hbd]
    exact ⟨rfl, rfl⟩

/-- Concrete random-walk enemy that reaches only the right edge. -/
noncomputable def c5wState : RWState :=
  { x := 797, y := 100, size := 10, speed := 5, direction := 90 }

/-- C5, witness: the right-edge clause of the amended theorem applied to a
concrete enemy that crosses only the right edge. -/
theorem c5_witness :
    ((rwMove c5wState).x + c5wState.size / 2 ≥ 800 ∧
     ¬((rwMove c5wState).y + c5wState.size / 2 ≥ 500) ∧
     ¬((rwMove c5wState).y - c5wState.size / 2 ≤ 0)) ∧
    ((rwUpdate 800 500 c5wState).x = 800 - c5wState.size / 2 ∧
     (rwUpdate 800 500 c5wState).direction = 180 - c5wState.direction) := by
  have hmv : rwMove c5wState =
      { x := 797, y := 105, size := 10, speed := 5, direction := 90 } := by
    unfold rwMove c5wState
    have hrad : (90 : ℝ) * Real.pi / 180 = Real.pi / 2 := by ring
    rw [hrad, Real.cos_pi_div_two, Real.sin_pi_div_two]
    norm_num
  have h1 : (rwMove c5wState).x + c5wState.size / 2 ≥ 800 := by
    rw [hmv]
    show (797 : ℝ) + c5wState.size / 2 ≥ 800
    norm_num [c5wState]
  have h2 : ¬((rwMove c5wState).y + c5wState.size / 2 ≥ 500) := by
    rw [hmv]
    show ¬((105 : ℝ) + c5wState.size / 2 ≥ 500)
    norm_num [c5wState]
  have h3 : ¬((rwMove c5wState).y - c5wState.size / 2 ≤ 0) := by
    rw [hmv]
    show ¬((105 : ℝ) - c5wState.size / 2 ≤ 0)
    norm_num [c5wState]
  exact ⟨⟨h1, h2, h3⟩, (c5_reflection 800 500 c5wState).1 h1 h2 h3⟩

/-! ChasingEnemy (lines 353 to 395). -/

/-- ChasingEnemy state: position, bounding-square side, speed. -/
structure ChaseState where
  x : ℝ
  y : ℝ
  size : ℝ
  speed : ℝ

/-- The movement step of ChasingEnemy.update (lines 371 to 374): compute
direction = atan2 (player_y - y) (player_x - x) and advance speed units
along (cos direction, sin direction), which is the bearing step
moveToward. -/
noncomputable def chaseMove (px py : ℝ) (st : ChaseState) : ℝ × ℝ :=
  moveToward (st.x, st.y) (px, py) st.speed

/-- ChasingEnemy.update (lines 370 to 387): pursue the current player
position, then clamp each coordinate to the arena; the hits_player check
(line 386) only signals the loss and is modelled by hitsPlayer below. -/
noncomputable def chasingUpdate (W H px py : ℝ) (st : ChaseState) : ChaseState :=
  { st with
    x := if (chaseMove px py st).1 - st.size / 2 < 0 then st.size / 2
         else if (chaseMove px py st).1 + st.size / 2 > W then W - st.size / 2
         else (chaseMove px py st).1,
    y := if (chaseMove px py st).2 - st.size / 2 < 0 then st.size / 2
         else if (chaseMove px py st).2 + st.size / 2 > H then H - st.size / 2
         else (chaseMove px py st).2 }

/-- Concrete chasing enemy one unit right of the player, speed two. -/
noncomputable def c6State : ChaseState := { x := 101, y := 100, size := 4, speed := 2 }

lemma c6_pdist_one : pdist ((101 : ℝ), (100 : ℝ)) ((100 : ℝ), (100 : ℝ)) = 1 := by
  show Real.sqrt (((100 : ℝ) - 101) ^ 2 + ((100 : ℝ) - 100) ^ 2) = 1
  rw [show ((100 : ℝ) - 101) ^ 2 + ((100 : ℝ) - 100) ^ 2 = 1 ^ 2 by norm_num]
  exact Real.sqrt_sq (by norm_num)

lemma c6_move : chaseMove 100 100 c6State = (99, 100) := by
  unfold chaseMove c6State moveToward bearingUnit
  rw [if_neg (by
    intro h
    have h1 := congrArg Prod.fst h
    norm_num at h1)]
  rw [show pdist ((101 : ℝ), (100 : ℝ)) ((100 : ℝ), (100 : ℝ)) = 1 from c6_pdist_one]
  norm_num

/-- C6, counterexample: a stationary player at (100, 100) and a chasing
enemy at (101, 100) with speed 2 and no clamping: the enemy overshoots to
(99, 100), and its distance to the player is 1 both before and after the
update, so the distance does not strictly decrease. -/
theorem c6_counterexample :
    pdist (c6State.x, c6State.y) (100, 100) = 1 ∧
    ((chasingUpdate 800 500 100 100 c6State).x,
     (chasingUpdate 800 500 100 100 c6State).y) = ((99 : ℝ), (100 : ℝ)) ∧
    pdist ((chasingUpdate 800 500 100 100 c6State).x,
           (chasingUpdate 800 500 100 100 c6State).y) (100, 100) = 1 ∧
    ¬(pdist ((chasingUpdate 800 500 100 100 c6State).x,
             (chasingUpdate 800 500 100 100 c6State).y) (100, 100)
        < pdist (c6State.x, c6State.y) (100, 100)) := by
  have hupd : chasingUpdate 800 500 100 100 c6State =
      { x := 99, y := 100, size := 4, speed := 2 } := by
    unfold chasingUpdate
    rw [c6_move]
    show ChaseState.mk
      (if (99 : ℝ) - c6State.size / 2 < 0 then _ else _)
      (if (100 : ℝ) - c6State.size / 2 < 0 then _ else _) _ _ = _
    rw [if_neg (by norm_num [c6State]), if_neg (by norm_num [c6State]),
      if_neg (by norm_num [c6State]), if_neg (by norm_num [c6State])]
    rfl
  have hd1 : pdist (c6State.x, c6State.y) (100, 100) = 1 := c6_pdist_one
  have hd2 : pdist ((chasingUpdate 800 500 100 100 c6State).x,
      (chasingUpdate 800 500 100 100 c6State).y) (100, 100) = 1 := by
    rw [hupd]
    show Real.sqrt (((100 : ℝ) - 99) ^ 2 + ((100 : ℝ) - 100) ^ 2) = 1
    rw [show ((100 : ℝ) - 99) ^ 2 + ((100 : ℝ) - 100) ^ 2 = 1 ^ 2 by norm_num]
    exact Real.sqrt_sq (by norm_num)
  refine ⟨hd1, by rw [hupd], hd2, ?_⟩
  rw [hd1, hd2]
  exact lt_irrefl 1

/-- C6 (amended: the strict decrease needs the pre-move distance to exceed
half the speed, on top of the no-clamping proviso already implicit in the
claim): for a stationary player, an update of a ChasingEnemy with positive
speed in which no boundary clamp fires and whose distance to the player
exceeds speed / 2 strictly decreases the Euclidean distance to the
player. -/
theorem c6_chasing_decrease (W H px py : ℝ) (st : ChaseState)
    (hs : 0 < st.speed)
    (hd : st.speed / 2 < pdist (st.x, st.y) (px, py))
    (hx1 : ¬((chaseMove px py st).1 - st.size / 2 < 0))
    (hx2 : ¬((chaseMove px py st).1 + st.size / 2 > W))
    (hy1 : ¬((chaseMove px py st).2 - st.size / 2 < 0))
    (hy2 : ¬((chaseMove px py st).2 + st.size / 2 > H)) :
    pdist ((chasingUpdate W H px py st).x, (chasingUpdate W H px py st).y)
      (px, py) < pdist (st.x, st.y) (px, py) := by
  have hdpos : 0 < pdist (st.x, st.y) (px, py) := lt_of_le_of_lt (by positivity) hd
  have hne : ((px : ℝ), (py : ℝ)) ≠ (st.x, st.y) := by
    intro h
    rw [← (pdist_eq_zero_iff (st.x, st.y) (px, py)).mpr h] at hdpos
    exact lt_irrefl _ hdpos
  have hupd : ((chasingUpdate W H px py st).x, (chasingUpdate W H px py st).y)
      = chaseMove px py st := by
    unfold chasingUpdate
    rw [if_neg hx1, if_neg hx2, if_neg hy1, if_neg hy2]
  rw [hupd]
  have hmv : pdist (chaseMove px py st) (px, py)
      = |pdist (st.x, st.y) (px, py) - st.speed| :=
    pdist_moveToward (st.x, st.y) (px, py) st.speed hne
  rw [hmv]
  rw [abs_lt]
  constructor
  · linarith
  · linarith

/-- Concrete chasing enemy 100 units right of the player. -/
noncomputable def c6wState : ChaseState := { x := 200, y := 100, size := 30, speed := 2 }

lemma c6w_move : chaseMove 100 100 c6wState = (198, 100) := by
  unfold chaseMove c6wState moveToward bearingUnit
  rw [if_neg (by
    intro h
    have h1 := congrArg Prod.fst h
    norm_num at h1)]
  rw [show pdist ((200 : ℝ), (100 : ℝ)) ((100 : ℝ), (100 : ℝ)) = 100 by
    show Real.sqrt (((100 : ℝ) - 200) ^ 2 + ((100 : ℝ) - 100) ^ 2) = 100
    rw [show ((100 : ℝ) - 200) ^ 2 + ((100 : ℝ) - 100) ^ 2 = 100 ^ 2 by norm_num]
    exact Real.sqrt_sq (by norm_num)]
  norm_num

/-- C6, witness: the amended theorem applied to a chasing enemy 100 units
from a stationary player, far from every wall. -/
theorem c6_witness :
    (0 < c6wState.speed ∧
     c6wState.speed / 2 < pdist (c6wState.x, c6wState.y) (100, 100)) ∧
    pdist ((chasingUpdate 800 500 100 100 c6wState).x,
           (chasingUpdate 800 500 100 100 c6wState).y) (100, 100)
      < pdist (c6wState.x, c6wState.y) (100, 100) := by
  have hdist : pdist (c6wState.x, c6wState.y) (100, 100) = 100 := by
    show Real.sqrt (((100 : ℝ) - 200) ^ 2 + ((100 : ℝ) - 100) ^ 2) = 100
    rw [show ((100 : ℝ) - 200) ^ 2 + ((100 : ℝ) - 100) ^ 2 = 100 ^ 2 by norm_num]
    exact Real.sqrt_sq (by norm_num)
  have hs : 0 < c6wState.speed := by norm_num [c6wState]
  have hd : c6wState.speed / 2 < pdist (c6wState.x, c6wState.y) (100, 100) := by
    rw [hdist]
    norm_num [c6wState]
  refine ⟨⟨hs, hd⟩, ?_⟩
  apply c6_chasing_decrease 800 500 100 100 c6wState hs hd
  · rw [c6w_move]
    norm_num [c6wState]
  · rw [c6w_move]
    norm_num [c6wState]
  · rw [c6w_move]
    norm_num [c6wState]
  · rw [c6w_move]
    norm_num [c6wState]

/-! FencingEnemy (lines 398 to 450) and its spawn step in create_enemy
(lines 557 to 562). -/

/-- FencingEnemy.HOME_OFFSET (line 402). -/
def HOME_OFFSET : ℝ := 20

/-- FencingEnemy state: position, size, patrol direction index over
[right, down, left, up], speed, and the cached home geometry. -/
structure FencingState where
  x : ℝ
  y : ℝ
  size : ℝ
  speed : ℝ
  currentDirectionIndex : ℕ
  homeX : ℝ
  homeY : ℝ
  offset : ℝ

/-- FencingEnemy.__init__ (lines 404 to 418): cache the home position,
set offset = HOME_OFFSET + homeSize / 2, start at direction index 0 and at
position (homeX - offset, homeY - offset). -/
noncomputable def fencingInit (homeX homeY homeSize size speed : ℝ) : FencingState :=
  { x := homeX - (HOME_OFFSET + homeSize / 2),
    y := homeY - (HOME_OFFSET + homeSize / 2),
    size := size,
    speed := speed,
    currentDirectionIndex := 0,
    homeX := homeX,
    homeY := homeY,
    offset := HOME_OFFSET + homeSize / 2 }

/-- The fencing spawn step of EnemyGenerator.create_enemy (lines 557 to
562): construct a FencingEnemy of size 10 (default speed 1), then assign
its x and y to the coordinates of Home before adding it to the game. -/
noncomputable def spawnFencing (homeX homeY homeSize : ℝ) : FencingState :=
  { fencingInit homeX homeY homeSize 10 1 with x := homeX, y := homeY }

/-- C7, counterexample: for the standard Home at (700, 250) with size 20
(offset 20 + 10 = 30), the claimed spawn position is the patrol corner
(670, 220), but after the spawn step of create_enemy the enemy sits at
Home itself, (700, 250): the generator overwrites the position set by the
constructor after construction, not before. -/
theorem c7_counterexample :
    (spawnFencing 700 250 20).x = 700 ∧
    (spawnFencing 700 250 20).y = 250 ∧
    (spawnFencing 700 250 20).x ≠ 700 - (20 + 20 / 2) ∧
    (spawnFencing 700 250 20).y ≠ 250 - (20 + 20 / 2) := by
  refine ⟨rfl, rfl, ?_, ?_⟩
  · show (700 : ℝ) ≠ 700 - (20 + 20 / 2)
    norm_num
  · show (250 : ℝ) ≠ 250 - (20 + 20 / 2)
    norm_num

/-- C7 (amended): the constructor places the FencingEnemy at the patrol
corner (homeX - offset, homeY - offset) with
offset = HOME_OFFSET + homeSize / 2 = 20 + homeSize / 2, but create_enemy
then overwrites the position with the coordinates of Home, so immediately
after the spawn step the position is (homeX, homeY), not the corner. -/
theorem c7_spawn_position (homeX homeY homeSize : ℝ) :
    (fencingInit homeX homeY homeSize 10 1).x
        = homeX - (HOME_OFFSET + homeSize / 2) ∧
    (fencingInit homeX homeY homeSize 10 1).y
        = homeY - (HOME_OFFSET + homeSize / 2) ∧
    (fencingInit homeX homeY homeSize 10 1).offset = 20 + homeSize / 2 ∧
    (spawnFencing homeX homeY homeSize).x = homeX ∧
    (spawnFencing homeX homeY homeSize).y = homeY ∧
    (spawnFencing homeX homeY homeSize).offset = 20 + homeSize / 2 := by
  refine ⟨rfl, rfl, ?_, rfl, rfl, ?_⟩
  · show HOME_OFFSET + homeSize / 2 = 20 + homeSize / 2
    rw [HOME_OFFSET]
  · show HOME_OFFSET + homeSize / 2 = 20 + homeSize / 2
    rw [HOME_OFFSET]

/-! The random spawn draws of create_enemy (lines 547 to 555). -/

/-- The position draws used by create_enemy for both the RandomWalkEnemy
(lines 548 to 549) and the ChasingEnemy (lines 553 to 554):
random.randint(0, 800) for x and random.randint(0, 500) for y, with both
bounds hardcoded.  A pair is a possible outcome exactly when it lies in
that fixed integer box. -/
def spawnDrawPossible (nx ny : ℤ) : Prop :=
  (0 ≤ nx ∧ nx ≤ 800) ∧ (0 ≤ ny ∧ ny ≤ 500)

instance (nx ny : ℤ) : Decidable (spawnDrawPossible nx ny) := by
  unfold spawnDrawPossible
  infer_instance

/-- Membership of a point in the arena box [0, W] x [0, H]. -/
def inArenaPoint (W H nx ny : ℤ) : Prop :=
  0 ≤ nx ∧ nx ≤ W ∧ 0 ≤ ny ∧ ny ≤ H

instance (W H nx ny : ℤ) : Decidable (inArenaPoint W H nx ny) := by
  unfold inArenaPoint
  infer_instance

/-- C8, counterexample: in a 400 by 300 arena, the draw (800, 250) is a
possible randint outcome (the bounds 800 and 500 are hardcoded, not the
arena size), and it lies outside the arena: spawn positions are not always
within the arena bounds. -/
theorem c8_counterexample :
    spawnDrawPossible 800 250 ∧ ¬ inArenaPoint 400 300 800 250 := by
  decide

/-- C8 (amended): the RandomWalk and Chasing spawn positions are drawn
from the fixed integer box [0, 800] x [0, 500] regardless of the arena, so
they lie inside the arena [0, W] x [0, H] exactly when the arena is at
least that large: every possible draw is in the fixed box, and is in the
arena whenever 800 le W and 500 le H. -/
theorem c8_spawn_range (nx ny : ℤ) (h : spawnDrawPossible nx ny) :
    inArenaPoint 800 500 nx ny ∧
    (∀ W H : ℤ, 800 ≤ W → 500 ≤ H → inArenaPoint W H nx ny) := by
  obtain ⟨⟨h1, h2⟩, h3, h4⟩ := h
  refine ⟨⟨h1, h2, h3, h4⟩, ?_⟩
  intro W H hW hH
  exact ⟨h1, by omega, h3, by omega⟩

/-- C8, witness: the amended theorem applied to the draw (400, 250). -/
theorem c8_witness :
    spawnDrawPossible 400 250 ∧
    (inArenaPoint 800 500 400 250 ∧
     (∀ W H : ℤ, 800 ≤ W → 500 ≤ H → inArenaPoint W H 400 250)) :=
  ⟨by decide, c8_spawn_range 400 250 (by decide)⟩

/-! Enemy.hits_player (lines 239 to 249) and degenerate zero-size
geometry (claim C9). -/

/-- Enemy.hits_player (lines 239 to 249): the player position must lie
strictly inside the bounding square of the enemy on both axes. -/
def hitsPlayer (ex ey esize px py : ℝ) : Prop :=
  (ex - esize / 2 < px ∧ px < ex + esize / 2) ∧
  (ey - esize / 2 < py ∧ py < ey + esize / 2)

/-- C9, counterexample: a zero-size Home still contains its own center
point, because Home.contains uses non-strict inequalities; so zero-size
containment is not always false. -/
theorem c9_counterexample : homeContains ⟨5, 5, 0⟩ 5 5 := by
  unfold homeContains
  norm_num

/-- C9 (amended): a zero-size Enemy never hits the player (the strict
inequalities of hits_player are unsatisfiable), and a zero-size Home
contains exactly its own center point - every other point is outside, but
the center itself is contained; both predicates are total, so neither call
can crash. -/
theorem c9_zero_size_geometry (hx hy ex ey px py : ℝ) :
    ¬ hitsPlayer ex ey 0 px py ∧
    (homeContains ⟨hx, hy, 0⟩ px py ↔ px = hx ∧ py = hy) := by
  constructor
  · intro h
    obtain ⟨⟨h1, h2⟩, _⟩ := h
    norm_num at h1 h2
    linarith
  · unfold homeContains
    constructor
    · intro ⟨⟨h1, h2⟩, h3, h4⟩
      norm_num at h1 h2 h3 h4
      exact ⟨le_antisymm h2 h1, le_antisymm h4 h3⟩
    · intro ⟨h1, h2⟩
      subst h1
      subst h2
      norm_num

/-! SinEnemy (lines 453 to 499). -/

/-- SinEnemy state: position, bounding-square side, amplitude, frequency
and the signed horizontal speed. -/
structure SinState where
  x : ℝ
  y : ℝ
  size : ℝ
  amplitude : ℝ
  frequency : ℝ
  speed : ℝ

/-- The movement step of SinEnemy.update (lines 475 to 476): x advances by
speed, then y is incremented by amplitude * sin (frequency * x) computed
with the already-updated x. -/
noncomputable def sinMove (st : SinState) : SinState :=
  { st with
    x := st.x + st.speed,
    y := st.y + st.amplitude * Real.sin (st.frequency * (st.x + st.speed)) }

/-- The horizontal clamp of SinEnemy.update (lines 478 to 483): clamp x at
either vertical edge and negate the speed (bounce). -/
noncomputable def sinClampX (W : ℝ) (st : SinState) : SinState :=
  if st.x - st.size / 2 < 0 then { st with x := st.size / 2, speed := -st.speed }
  else if st.x + st.size / 2 > W then
    { st with x := W - st.size / 2, speed := -st.speed }
  else st

/-- The vertical clamp of SinEnemy.update (lines 485 to 488): clamp y at
either horizontal edge; the speed is unchanged. -/
noncomputable def sinClampY (H : ℝ) (st : SinState) : SinState :=
  if st.y - st.size / 2 < 0 then { st with y := st.size / 2 }
  else if st.y + st.size / 2 > H then { st with y := H - st.size / 2 }
  else st

/-- SinEnemy.update (lines 474 to 491): move, clamp x, clamp y; the
hits_player check (line 490) only signals the loss and is modelled by
hitsPlayer. -/
noncomputable def sinUpdate (W H : ℝ) (st : SinState) : SinState :=
  sinClampY H (sinClampX W (sinMove st))

lemma sinClampX_x (W : ℝ) (st : SinState) : (sinClampX W st).x =
    if st.x - st.size / 2 < 0 then st.size / 2
    else if st.x + st.size / 2 > W then W - st.size / 2
    else st.x := by
  unfold sinClampX
  split_ifs <;> rfl

lemma sinClampX_y (W : ℝ) (st : SinState) : (sinClampX W st).y = st.y := by
  unfold sinClampX
  split_ifs <;> rfl

lemma sinClampX_size (W : ℝ) (st : SinState) : (sinClampX W st).size = st.size := by
  unfold sinClampX
  split_ifs <;> rfl

lemma sinClampY_y (H : ℝ) (st : SinState) : (sinClampY H st).y =
    if st.y - st.size / 2 < 0 then st.size / 2
    else if st.y + st.size / 2 > H then H - st.size / 2
    else st.y := by
  unfold sinClampY
  split_ifs <;> rfl

lemma sinClampY_x (H : ℝ) (st : SinState) : (sinClampY H st).x = st.x := by
  unfold sinClampY
  split_ifs <;> rfl

lemma sinClampY_size (H : ℝ) (st : SinState) : (sinClampY H st).size = st.size := by
  unfold sinClampY
  split_ifs <;> rfl

lemma rwBounceX_bounds (W : ℝ) (st : RWState) (hW : st.size ≤ W) :
    st.size / 2 ≤ (rwBounceX W st).x ∧ (rwBounceX W st).x ≤ W - st.size / 2 := by
  by_cases h1 : st.x + st.size / 2 ≥ W
  · obtain ⟨hx, _, _, _⟩ := rwBounceX_right W st h1
    rw [hx]
    constructor <;> linarith
  · by_cases h2 : st.x - st.size / 2 ≤ 0
    · obtain ⟨hx, _, _, _⟩ := rwBounceX_left W st h1 h2
      rw [hx]
      constructor <;> linarith
    · rw [rwBounceX_none W st h1 h2]
      constructor <;> linarith

lemma rwBounceY_bounds (H : ℝ) (st : RWState) (hH : st.size ≤ H) :
    st.size / 2 ≤ (rwBounceY H st).y ∧ (rwBounceY H st).y ≤ H - st.size / 2 := by
  by_cases h1 : st.y + st.size / 2 ≥ H
  · obtain ⟨hy, _, _, _⟩ := rwBounceY_bottom H st h1
    rw [hy]
    constructor <;> linarith
  · by_cases h2 : st.y - st.size / 2 ≤ 0
    · obtain ⟨hy, _, _, _⟩ := rwBounceY_top H st h1 h2
      rw [hy]
      constructor <;> linarith
    · rw [rwBounceY_none H st h1 h2]
      constructor <;> linarith

lemma rw_inArena (W H : ℝ) (st : RWState) (hW : st.size ≤ W) (hH : st.size ≤ H) :
    st.size / 2 ≤ (rwUpdate W H st).x ∧ (rwUpdate W H st).x ≤ W - st.size / 2 ∧
    st.size / 2 ≤ (rwUpdate W H st).y ∧ (rwUpdate W H st).y ≤ H - st.size / 2 := by
  unfold rwUpdate
  have hx := rwBounceX_bounds W (rwMove st) hW
  have hy := rwBounceY_bounds H (rwBounceX W (rwMove st))
    (by rw [rwBounceX_size]; exact hH)
  rw [rwBounceY_x]
  rw [rwBounceX_size] at hy
  exact ⟨hx.1, hx.2, hy.1, hy.2⟩

lemma chasing_inArena (W H px py : ℝ) (st : ChaseState)
    (hW : st.size ≤ W) (hH : st.size ≤ H) :
    st.size / 2 ≤ (chasingUpdate W H px py st).x ∧
    (chasingUpdate W H px py st).x ≤ W - st.size / 2 ∧
    st.size / 2 ≤ (chasingUpdate W H px py st).y ∧
    (chasingUpdate W H px py st).y ≤ H - st.size / 2 := by
  have hx : (chasingUpdate W H px py st).x =
      if (chaseMove px py st).1 - st.size / 2 < 0 then st.size / 2
      else if (chaseMove px py st).1 + st.size / 2 > W then W - st.size / 2
      else (chaseMove px py st).1 := rfl
  have hy : (chasingUpdate W H px py st).y =
      if (chaseMove px py st).2 - st.size / 2 < 0 then st.size / 2
      else if (chaseMove px py st).2 + st.size / 2 > H then H - st.size / 2
      else (chaseMove px py st).2 := rfl
  rw [hx, hy]
  refine ⟨?_, ?_, ?_, ?_⟩ <;> split_ifs <;> linarith

lemma sin_inArena (W H : ℝ) (st : SinState) (hW : st.size ≤ W) (hH : st.size ≤ H) :
    st.size / 2 ≤ (sinUpdate W H st).x ∧ (sinUpdate W H st).x ≤ W - st.size / 2 ∧
    st.size / 2 ≤ (sinUpdate W H st).y ∧ (sinUpdate W H st).y ≤ H - st.size / 2 := by
  unfold sinUpdate
  have hsz : (sinClampX W (sinMove st)).size = st.size := sinClampX_size W (sinMove st)
  have hms : (sinMove st).size = st.size := rfl
  constructor
  · rw [sinClampY_x, sinClampX_x, hms]
    split_ifs <;> linarith
  constructor
  · rw [sinClampY_x, sinClampX_x, hms]
    split_ifs <;> linarith
  constructor
  · rw [sinClampY_y, hsz, sinClampX_y]
    split_ifs <;> linarith
  · rw [sinClampY_y, hsz, sinClampX_y]
    split_ifs <;> linarith

/-- C10 (confirmed): for each of RandomWalkEnemy, ChasingEnemy and
SinEnemy with positive size at most the arena dimensions, a single update
leaves the position in [size/2, W - size/2] x [size/2, H - size/2] no
matter where the enemy was before the update: the bounding square stays
inside the arena. -/
theorem c10_enemy_stays_in_arena (W H px py : ℝ)
    (rwe : RWState) (che : ChaseState) (sne : SinState)
    (_hr0 : 0 < rwe.size) (hrW : rwe.size ≤ W) (hrH : rwe.size ≤ H)
    (_hc0 : 0 < che.size) (hcW : che.size ≤ W) (hcH : che.size ≤ H)
    (_hs0 : 0 < sne.size) (hsW : sne.size ≤ W) (hsH : sne.size ≤ H) :
    (rwe.size / 2 ≤ (rwUpdate W H rwe).x ∧
     (rwUpdate W H rwe).x ≤ W - rwe.size / 2 ∧
     rwe.size / 2 ≤ (rwUpdate W H rwe).y ∧
     (rwUpdate W H rwe).y ≤ H - rwe.size / 2) ∧
    (che.size / 2 ≤ (chasingUpdate W H px py che).x ∧
     (chasingUpdate W H px py che).x ≤ W - che.size / 2 ∧
     che.size / 2 ≤ (chasingUpdate W H px py che).y ∧
     (chasingUpdate W H px py che).y ≤ H - che.size / 2) ∧
    (sne.size / 2 ≤ (sinUpdate W H sne).x ∧
     (sinUpdate W H sne).x ≤ W - sne.size / 2 ∧
     sne.size / 2 ≤ (sinUpdate W H sne).y ∧
     (sinUpdate W H sne).y ≤ H - sne.size / 2) :=
  ⟨rw_inArena W H rwe hrW hrH,
   chasing_inArena W H px py che hcW hcH,
   sin_inArena W H sne hsW hsH⟩

/-- Concrete states for the C10 witness: the sizes used by create_enemy
(15, 30 and 20), each well inside the 800 by 500 arena bounds. -/
noncomputable def c10rw : RWState := { x := 400, y := 250, size := 15, speed := 3, direction := 45 }

noncomputable def c10ch : ChaseState := { x := 10, y := 490, size := 30, speed := 2 }

noncomputable def c10sn : SinState :=
  { x := 795, y := 125, size := 20, amplitude := 50, frequency := 1 / 50, speed := 1 }

/-- C10, witness: the theorem applied to the three concrete enemies. -/
theorem c10_witness :
    (0 < c10rw.size ∧ c10rw.size ≤ 800 ∧ c10rw.size ≤ 500 ∧
     0 < c10ch.size ∧ c10ch.size ≤ 800 ∧ c10ch.size ≤ 500 ∧
     0 < c10sn.size ∧ c10sn.size ≤ 800 ∧ c10sn.size ≤ 500) ∧
    ((c10rw.size / 2 ≤ (rwUpdate 800 500 c10rw).x ∧
      (rwUpdate 800 500 c10rw).x ≤ 800 - c10rw.size / 2 ∧
      c10rw.size / 2 ≤ (rwUpdate 800 500 c10rw).y ∧
      (rwUpdate 800 500 c10rw).y ≤ 500 - c10rw.size / 2) ∧
     (c10ch.size / 2 ≤ (chasingUpdate 800 500 50 250 c10ch).x ∧
      (chasingUpdate 800 500 50 250 c10ch).x ≤ 800 - c10ch.size / 2 ∧
      c10ch.size / 2 ≤ (chasingUpdate 800 500 50 250 c10ch).y ∧
      (chasingUpdate 800 500 50 250 c10ch).y ≤ 500 - c10ch.size / 2) ∧
     (c10sn.size / 2 ≤ (sinUpdate 800 500 c10sn).x ∧
      (sinUpdate 800 500 c10sn).x ≤ 800 - c10sn.size / 2 ∧
      c10sn.size / 2 ≤ (sinUpdate 800 500 c10sn).y ∧
      (sinUpdate 800 500 c10sn).y ≤ 500 - c10sn.size / 2)) := by
  have h1 : 0 < c10rw.size := by norm_num [c10rw]
  have h2 : c10rw.size ≤ (800 : ℝ) := by norm_num [c10rw]
  have h3 : c10rw.size ≤ (500 : ℝ) := by norm_num [c10rw]
  have h4 : 0 < c10ch.size := by norm_num [c10ch]
  have h5 : c10ch.size ≤ (800 : ℝ) := by norm_num [c10ch]
  have h6 : c10ch.size ≤ (500 : ℝ) := by norm_num [c10ch]
  have h7 : 0 < c10sn.size := by norm_num [c10sn]
  have h8 : c10sn.size ≤ (800 : ℝ) := by norm_num [c10sn]
  have h9 : c10sn.size ≤ (500 : ℝ) := by norm_num [c10sn]
  exact ⟨⟨h1, h2, h3, h4, h5, h6, h7, h8, h9⟩,
    c10_enemy_stays_in_arena 800 500 50 250 c10rw c10ch c10sn
      h1 h2 h3 h4 h5 h6 h7 h8 h9⟩

end TurtleAdventure
